import Mathlib

/-!
Verification of the SLIP framing library.  Bytes are modelled as natural
numbers and byte strings as lists of natural numbers.  The escape codec and
the framing engine (class Driver of module sliplib.slip) are not part of the
available sources, so they are modelled from the specification; the wrapper
classes SlipWrapper (module sliplib.slipwrapper) and SlipStream (module
sliplib.slipstream) are translated from the source code.
-/

namespace Sliplib

/-- Decidable equality for Except values, so that concrete runs of the
model can be checked by evaluation. -/
instance {ε α : Type _} [DecidableEq ε] [DecidableEq α] :
    DecidableEq (Except ε α)
  | Except.error a, Except.error b =>
    if h : a = b then Decidable.isTrue (by rw [h])
    else Decidable.isFalse (by intro hc; cases hc; exact h rfl)
  | Except.error _, Except.ok _ =>
    Decidable.isFalse (fun hc => Except.noConfusion hc)
  | Except.ok _, Except.error _ =>
    Decidable.isFalse (fun hc => Except.noConfusion hc)
  | Except.ok a, Except.ok b =>
    if h : a = b then Decidable.isTrue (by rw [h])
    else Decidable.isFalse (by intro hc; cases hc; exact h rfl)

/-- Modelled from the spec: the reserved byte END (0xC0).  The module
sliplib.slip defining the protocol constants is missing from the sources. -/
def END : Nat := 192

/-- Modelled from the spec: the reserved byte ESC (0xDB). -/
def ESC : Nat := 219

/-- Modelled from the spec: the escape continuation ESC_END (0xDC). -/
def ESC_END : Nat := 220

/-- Modelled from the spec: the escape continuation ESC_ESC (0xDD). -/
def ESC_ESC : Nat := 221

/-- Modelled from the spec: escaping of one message byte by the encoder of
the missing module sliplib.slip.  An END byte becomes ESC ESC_END, an ESC
byte becomes ESC ESC_ESC, every other byte passes through unchanged. -/
def escapeByte (b : Nat) : List Nat :=
  if b = END then [ESC, ESC_END]
  else if b = ESC then [ESC, ESC_ESC]
  else [b]

/-- Modelled from the spec: the escaped body of a packet, obtained by
escaping every byte of the message in order. -/
def encodeBody : List Nat → List Nat
  | [] => []
  | b :: m => escapeByte b ++ encodeBody m

/-- Modelled from the spec: the encoder of the missing module sliplib.slip.
It emits a leading END, the escaped message bytes, and a trailing END. -/
def encode (m : List Nat) : List Nat := END :: (encodeBody m ++ [END])

/-- Modelled from the spec: the escape-sequence state machine of the decoder
of the missing module sliplib.slip, applied to an already-delimited packet
body.  It fails (returns none) when the body contains a bare END, or an ESC
that is not followed by ESC_END or ESC_ESC (including an ESC at the end of
the body); otherwise it replaces each ESC ESC_END pair by END and each
ESC ESC_ESC pair by ESC and passes every other byte through unchanged. -/
def decodeBody : List Nat → Option (List Nat)
  | [] => some []
  | [b] => if b = END ∨ b = ESC then none else some [b]
  | b :: c :: rest =>
    if b = END then none
    else if b = ESC then
      if c = ESC_END then (decodeBody rest).map (fun t => END :: t)
      else if c = ESC_ESC then (decodeBody rest).map (fun t => ESC :: t)
      else none
    else (decodeBody (c :: rest)).map (fun t => b :: t)

/-- Modelled from the spec: the decoder of the missing module sliplib.slip.
On failure the protocol error carries the offending raw packet body. -/
def decode (body : List Nat) : Except (List Nat) (List Nat) :=
  match decodeBody body with
  | some m => Except.ok m
  | none => Except.error body

/-- Modelled from the spec: removal of the framing delimiters around a
packet, dropping the END bytes at both ends. -/
def strip_delimiters (packet : List Nat) : List Nat :=
  (((packet.dropWhile (fun b => b == END)).reverse).dropWhile
    (fun b => b == END)).reverse

/-- Modelled from the spec: an item produced by the framing engine of the
missing module sliplib.slip, kept in arrival order.  A decoded message and a
protocol error record (carrying the raw malformed packet body) are queued in
the order in which their terminating END byte arrived, so that the retrieval
operation surfaces errors and messages in relative arrival order. -/
inductive SlipEvent where
  | msg (m : List Nat)
  | err (body : List Nat)
deriving DecidableEq, Repr

/-- Modelled from the spec: the packet-extraction scan of the receive
operation.  The first argument is the content accumulated for the current
packet body, the second the bytes still to be scanned.  When an END byte is
found with no content before it, it is consumed as an empty separator
(leading, trailing and duplicate delimiters between packets); when it is
found with non-empty content before it, that content is a candidate packet
body which is decoded into a message on success and recorded as a protocol
error on failure, after which scanning continues.  Bytes after the last END
remain as the partial body.  The result is the remaining buffer content and
the produced items in arrival order. -/
def scanBuffer : List Nat → List Nat → List Nat × List SlipEvent
  | acc, [] => (acc, [])
  | acc, b :: rest =>
    if b = END then
      let r := scanBuffer [] rest
      if acc = [] then r
      else
        match decode acc with
        | Except.ok m => (r.1, SlipEvent.msg m :: r.2)
        | Except.error body => (r.1, SlipEvent.err body :: r.2)
    else scanBuffer (acc ++ [b]) rest

/-- Modelled from the spec: the state of the framing engine (class Driver of
the missing module sliplib.slip): the receive buffer, the queue of decoded
messages and unreported protocol errors in arrival order, and a flag that
records that the end-of-stream signal (an empty chunk) has been fed. -/
structure Driver where
  recv_buffer : List Nat
  events : List SlipEvent
  finished : Bool
deriving DecidableEq, Repr

/-- Modelled from the spec: a freshly constructed Driver with empty buffer,
empty queue and no end-of-stream signal seen. -/
def Driver.new : Driver := ⟨[], [], false⟩

/-- Modelled from the spec: the send operation of the Driver, which returns
the encoding of the message and leaves the engine state unchanged. -/
def Driver.send (d : Driver) (message : List Nat) : List Nat × Driver :=
  (encode message, d)

/-- Modelled from the spec: the receive operation of the Driver.  An empty
chunk is the end-of-stream signal and only records that no more data will
arrive; a non-empty chunk is appended to the receive buffer, after which
every complete packet is extracted, decoded and queued in arrival order.
The remaining buffer content never contains an END byte. -/
def Driver.receive (d : Driver) (chunk : List Nat) : Driver :=
  if chunk = [] then { d with finished := true }
  else
    { d with
      recv_buffer := (scanBuffer [] (d.recv_buffer ++ chunk)).1,
      events := d.events ++ (scanBuffer [] (d.recv_buffer ++ chunk)).2 }

/-- Modelled from the spec: the non-blocking retrieval operation of the
Driver (get with block set to false).  The oldest queued item is removed and
returned: a decoded message as a normal result, an unreported protocol error
as a distinguishable failure that is surfaced exactly once.  With nothing
queued the call returns absent, except that after the end-of-stream signal
it yields the empty message, on which iteration over a wrapper ends. -/
def Driver.get (d : Driver) : Option (Except (List Nat) (List Nat)) × Driver :=
  match d.events with
  | e :: rest =>
    (some (match e with
           | SlipEvent.msg m => Except.ok m
           | SlipEvent.err body => Except.error body),
     { d with events := rest })
  | [] => if d.finished then (some (Except.ok []), d) else (none, d)

/-- Translated from SlipWrapper.recv_msg (src/sliplib/slipwrapper.py).  The
wrapped byte stream is modelled by the list of chunks that successive calls
of recv_bytes will deliver; once the list is exhausted every further
recv_bytes call returns the empty chunk, the conventional end-of-stream
signal.  The method loops: while the non-blocking retrieval returns absent,
it reads one chunk from the stream and feeds it to the Driver receive
operation; it returns the retrieved result (a decoded message, or a
protocol error raised to the caller) together with the resulting Driver
state and the unread remainder of the stream.  The last branch is
impossible: after the end-of-stream signal the retrieval operation cannot
return absent, so the loop always ends. -/
def recv_msg : Driver → List (List Nat) →
    Except (List Nat) (List Nat) × Driver × List (List Nat)
  | d, c :: cs =>
    match d.get with
    | (some r, d2) => (r, d2, c :: cs)
    | (none, _) => recv_msg (d.receive c) cs
  | d, [] =>
    match d.get with
    | (some r, d2) => (r, d2, [])
    | (none, _) =>
      match h : ((d.receive []).get) with
      | (some r, d2) => (r, d2, [])
      | (none, _) =>
        absurd (congrArg Prod.fst h)
          (by simp only [Driver.receive, Driver.get]
              cases d.events <;> simp)

/-- Translated from SlipWrapper.send_msg (src/sliplib/slipwrapper.py).  The
transport is modelled by the list of packets handed to send_bytes so far.
The method obtains the packet from the Driver send operation and hands
exactly that packet to send_bytes; the result is the Driver state afterwards
and the extended transport log. -/
def send_msg (d : Driver) (written : List (List Nat)) (message : List Nat) :
    Driver × List (List Nat) :=
  ((d.send message).2, written ++ [(d.send message).1])

/-- The observable outcome of iterating over a SlipWrapper: the messages
yielded in order, the body of an uncaught protocol error if one was raised
out of the iteration (none when the iteration ended normally on an empty
message), and the Driver state and unread stream remainder at the end. -/
structure IterRun where
  msgs : List (List Nat)
  error : Option (List Nat)
  finalDriver : Driver
  finalInput : List (List Nat)
deriving DecidableEq, Repr

/-- Record one more yielded message at the front of an iteration outcome. -/
def IterRun.push (m : List Nat) (r : IterRun) : IterRun :=
  { r with msgs := m :: r.msgs }

/-- A fuel bound sufficient for the iteration loop: every round either
removes one queued item, consumes one chunk of the stream, or feeds the
pending end-of-stream signal, and the items a chunk can add to the queue are
bounded by its size, so queued items plus buffered bytes plus the sizes of
the unread chunks (one extra per chunk) plus one for the pending
end-of-stream signal bounds the number of rounds. -/
def iterMeasure (d : Driver) (input : List (List Nat)) : Nat :=
  d.events.length + d.recv_buffer.length +
    (input.map (fun c => c.length + 1)).sum + (if d.finished then 0 else 1)

/-- Translated from SlipWrapper.__iter__ (src/sliplib/slipwrapper.py), with
the loop of recv_msg inlined (the iterator repeatedly calls recv_msg and
recv_msg repeatedly polls the Driver), made total with a fuel argument:
each round polls the non-blocking retrieval; a retrieved non-empty message
is yielded and iteration goes on, a retrieved empty message ends the
iteration, a retrieved protocol error escapes the iteration uncaught; when
the retrieval returns absent, one chunk is read from the stream (the empty
end-of-stream chunk once the stream is exhausted) and fed to the Driver
receive operation.  With fuel at least iterMeasure the fuel never runs out,
and at measure zero the fuel-exhaustion result coincides with the normal
end of the iteration, so the fuelled loop computes the true outcome. -/
def iterFuel : Nat → Driver → List (List Nat) → IterRun
  | 0, d, input => ⟨[], none, d, input⟩
  | n + 1, d, input =>
    match d.get with
    | (some (Except.error e), d2) => ⟨[], some e, d2, input⟩
    | (some (Except.ok []), d2) => ⟨[], none, d2, input⟩
    | (some (Except.ok (b :: m)), d2) => (iterFuel n d2 input).push (b :: m)
    | (none, _) =>
      match input with
      | [] => iterFuel n (d.receive []) []
      | c :: cs => iterFuel n (d.receive c) cs

/-- Iterating over a SlipWrapper: the loop above, run with enough fuel. -/
def iterLoop (d : Driver) (input : List (List Nat)) : IterRun :=
  iterFuel (iterMeasure d input) d input

/-- A Driver state whose queue holds no empty decoded message.  The framing
engine never queues an empty message (empty packet bodies are consumed as
separators), so every state reachable from a fresh Driver satisfies this. -/
def GoodEvents (d : Driver) : Prop := SlipEvent.msg [] ∉ d.events

/-- Translated from SlipStream.send_bytes (src/sliplib/slipstream.py), made
total with a fuel argument.  The partial-write behaviour of the wrapped
stream is modelled by an oracle giving, for each successive write call, the
number of bytes the stream reports as actually written; the loop passes the
unwritten remainder to the next write call until nothing remains.  The
result is the list of accepted byte sequences (the reported-length prefixes
of the successive packets passed to write), or none when the fuel ran out
before the packet was fully written. -/
def send_bytes_fuel : Nat → (Nat → Nat) → Nat → List Nat →
    Option (List (List Nat))
  | _, _, _, [] => some []
  | 0, _, _, _ => none
  | fuel + 1, w, k, packet =>
    (send_bytes_fuel fuel w (k + 1) (packet.drop (w k))).map
      (fun segs => packet.take (w k) :: segs)

/-- Translated from SlipStream.send_bytes (src/sliplib/slipstream.py): the
retry loop run with fuel equal to the packet length, which suffices whenever
every write call writes at least one byte. -/
def send_bytes (w : Nat → Nat) (packet : List Nat) :
    Option (List (List Nat)) :=
  send_bytes_fuel packet.length w 0 packet

/-- A byte stream object as seen by SlipStream: whether it has a read
attribute and whether that attribute is callable, the same for write,
whether it has an encoding attribute, the value of its closed attribute
(none when the attribute is absent), and the data its read method returns
for a requested chunk size. -/
structure PyStream where
  hasRead : Bool
  readCallable : Bool
  hasWrite : Bool
  writeCallable : Bool
  hasEncoding : Bool
  closed : Option Bool
  readData : Int → List Nat

/-- The value of io.DEFAULT_BUFFER_SIZE in CPython. -/
def DEFAULT_BUFFER_SIZE : Int := 8192

/-- The state of a constructed SlipStream: the stored stream, the stored
chunk_size attribute and the attached Driver. -/
structure SlipStreamState where
  stream : PyStream
  chunk_size : Int
  driver : Driver

/-- Translated from SlipStream.__init__ (src/sliplib/slipstream.py): raises
TypeError (modelled as none) when the stream lacks a callable read method,
lacks a callable write method, or has an encoding attribute; otherwise it
stores the chunk_size (replaced by io.DEFAULT_BUFFER_SIZE when it is not
positive) and, via SlipWrapper.__init__, the stream itself and a freshly
constructed Driver. -/
def SlipStream.init (stream : PyStream) (chunk_size : Int) :
    Option SlipStreamState :=
  if stream.hasRead && stream.readCallable then
    if stream.hasWrite && stream.writeCallable then
      if stream.hasEncoding then none
      else
        some
          { stream := stream,
            chunk_size :=
              if chunk_size > 0 then chunk_size else DEFAULT_BUFFER_SIZE,
            driver := Driver.new }
    else none
  else none

/-- Translated from SlipStream._stream_is_closed (src/sliplib/slipstream.py):
the value of the closed attribute of the wrapped stream, or False when the
attribute is absent. -/
def SlipStream.stream_is_closed (s : SlipStreamState) : Bool :=
  s.stream.closed.getD false

/-- Translated from SlipStream.recv_bytes (src/sliplib/slipstream.py): an
empty result without touching the stream when the wrapped stream reports
itself closed, otherwise the result of one read call with chunk_size bytes
requested.  The second component records the arguments of the read calls
performed on the wrapped stream. -/
def SlipStream.recv_bytes (s : SlipStreamState) : List Nat × List Int :=
  if SlipStream.stream_is_closed s then ([], [])
  else (s.stream.readData s.chunk_size, [s.chunk_size])

/-- The outcome of an attribute access that fell through to
SlipStream.__getattr__: refusal (AttributeError) or delegation to the
wrapped stream (with a deprecation warning). -/
inductive AttrAccess where
  | refused
  | delegated
deriving DecidableEq, Repr

/-- Translated from SlipStream.__getattr__ (src/sliplib/slipstream.py): the
tuple of attribute names that are refused in addition to all names starting
with read or write. -/
def blockedAttributes : List String :=
  ["detach", "flushInput", "flushOutput", "getbuffer", "getvalue", "peek",
   "raw", "reset_input_buffer", "reset_output_buffer", "seek", "seekable",
   "tell", "truncate"]

/-- Translated from SlipStream.__getattr__ (src/sliplib/slipstream.py),
which Python invokes for attributes not defined on the wrapper itself: the
access is refused with AttributeError when the name starts with read or
write or is one of the blocked names, and is otherwise delegated to the
wrapped stream. -/
def SlipStream.getattr (a : String) : AttrAccess :=
  if a.startsWith "read" || a.startsWith "write" || blockedAttributes.contains a
  then AttrAccess.refused
  else AttrAccess.delegated

/-- A Driver state holding one queued decoded message, used as a witness. -/
def dPop : Driver := ⟨[], [SlipEvent.msg [65]], false⟩

/-- The state dPop after its queued message has been retrieved. -/
def dPop0 : Driver := ⟨[], [], false⟩

/-- A drained Driver state that has seen the end-of-stream signal. -/
def dFin : Driver := ⟨[], [], true⟩

/-- A Driver state holding one unreported protocol error, used as a
witness. -/
def dErr : Driver := ⟨[], [SlipEvent.err [1]], false⟩

/-- A Driver state holding a protocol error followed by a queued decoded
message, as produced by one receive call that saw a malformed packet before
a valid one.  Used as a witness and as a counterexample state. -/
def dErrMsg : Driver := Driver.new.receive [192, 219, 255, 192, 65, 192]

/-- A stream accepted by SlipStream.__init__, used as a witness. -/
def sampleStream : PyStream :=
  { hasRead := true, readCallable := true, hasWrite := true,
    writeCallable := true, hasEncoding := false, closed := none,
    readData := fun _ => [9] }

/-- The sampleStream with its closed attribute set, used as a witness. -/
def sampleClosedStream : PyStream :=
  { sampleStream with closed := some true }

/-- A SlipStream state wrapping sampleStream, used as a witness. -/
def sampleState : SlipStreamState :=
  { stream := sampleStream, chunk_size := 5, driver := Driver.new }

/-- A SlipStream state wrapping sampleClosedStream, used as a witness. -/
def sampleClosedState : SlipStreamState :=
  { stream := sampleClosedStream, chunk_size := 5, driver := Driver.new }

/-- The SlipStream state built from sampleStream and a non-positive
chunk_size argument, used as a witness. -/
def sampleStateDefault : SlipStreamState :=
  { stream := sampleStream, chunk_size := DEFAULT_BUFFER_SIZE,
    driver := Driver.new }

theorem escapeByte_ne_nil {b : Nat} : escapeByte b ≠ [] := by
  unfold escapeByte
  split
  · simp
  · split <;> simp

theorem escapeByte_ne_end {b x : Nat} (h : x ∈ escapeByte b) : x ≠ END := by
  intro hx
  subst hx
  unfold escapeByte at h
  split at h
  · simp [ESC, ESC_END, END] at h
  · split at h
    · simp [ESC, ESC_ESC, END] at h
    · next hbE hbS =>
      simp only [List.mem_singleton] at h
      exact hbE h.symm

theorem encodeBody_ne_end {m : List Nat} {x : Nat}
    (h : x ∈ encodeBody m) : x ≠ END := by
  induction m with
  | nil => simp [encodeBody] at h
  | cons b t ih =>
    simp only [encodeBody, List.mem_append] at h
    rcases h with h | h
    · exact escapeByte_ne_end h
    · exact ih h

theorem encodeBody_eq_nil {m : List Nat} (h : encodeBody m = []) : m = [] := by
  cases m with
  | nil => rfl
  | cons b t =>
    exfalso
    rw [encodeBody, List.append_eq_nil] at h
    exact escapeByte_ne_nil h.1

theorem dropWhile_end_eq_self {l : List Nat} (h : ∀ x ∈ l, x ≠ END) :
    l.dropWhile (fun b => b == END) = l := by
  cases l with
  | nil => rfl
  | cons a t =>
    apply List.dropWhile_cons_of_neg
    simp only [beq_iff_eq]
    exact h a (by simp)

theorem strip_encode (m : List Nat) :
    strip_delimiters (encode m) = encodeBody m := by
  unfold strip_delimiters encode
  rw [List.dropWhile_cons_of_pos (by simp)]
  cases hEnc : encodeBody m with
  | nil => simp
  | cons a t =>
    rw [List.cons_append,
      List.dropWhile_cons_of_neg
        (by simpa using encodeBody_ne_end (hEnc ▸ List.mem_cons_self a t)),
      ← List.cons_append, List.reverse_append, List.reverse_cons,
      List.reverse_nil, List.nil_append, List.singleton_append,
      List.dropWhile_cons_of_pos (by simp),
      dropWhile_end_eq_self
        (fun x hx => encodeBody_ne_end (hEnc ▸ List.mem_reverse.mp hx)),
      List.reverse_reverse]

theorem decodeBody_encodeBody (m : List Nat) :
    decodeBody (encodeBody m) = some m := by
  induction m with
  | nil => rfl
  | cons b t ih =>
    by_cases hbE : b = END
    · subst hbE
      simp [encodeBody, escapeByte, decodeBody, ih, END, ESC, ESC_END,
        ESC_ESC]
    · by_cases hbS : b = ESC
      · subst hbS
        simp [encodeBody, escapeByte, decodeBody, ih, END, ESC, ESC_END,
          ESC_ESC]
      · cases hEnc : encodeBody t with
        | nil =>
          have ht : t = [] := encodeBody_eq_nil hEnc
          subst ht
          simp [encodeBody, escapeByte, hbE, hbS, decodeBody]
        | cons c rest =>
          rw [encodeBody, escapeByte, if_neg hbE, if_neg hbS, hEnc,
            List.singleton_append, decodeBody]
          rw [if_neg hbE, if_neg hbS, ← hEnc, ih]
          rfl

/-- C1: for every byte message m, including the empty message and messages
containing the reserved bytes END, ESC, ESC_END and ESC_ESC, decoding the
result of encoding m after stripping the framing delimiters yields exactly
m. -/
theorem slip_roundtrip (m : List Nat) (_hbytes : ∀ b ∈ m, b < 256) :
    decode (strip_delimiters (encode m)) = Except.ok m := by
  rw [strip_encode, decode, decodeBody_encodeBody]

theorem slip_roundtrip_witness :
    (∀ b ∈ [0, 65, 192, 219, 220, 221], b < 256) ∧
      decode (strip_delimiters (encode [0, 65, 192, 219, 220, 221])) =
        Except.ok [0, 65, 192, 219, 220, 221] :=
  ⟨by decide, slip_roundtrip [0, 65, 192, 219, 220, 221] (by decide)⟩

/-- C2 counterexample: a Driver that received one chunk holding a malformed
packet followed by a valid packet holds the decoded message 65 as its only
queued decoded message, yet recv_msg does not return it: the protocol error
recorded before it is raised first. -/
theorem recv_msg_queue_counterexample :
    dErrMsg.events = [SlipEvent.err [219, 255], SlipEvent.msg [65]] ∧
      (recv_msg dErrMsg []).1 = Except.error [219, 255] ∧
      (recv_msg dErrMsg []).1 ≠ Except.ok [65] := by
  decide

/-- C2 (amended): for every SlipWrapper whose driver holds a queued decoded
message with no earlier-arrived unreported protocol error before it,
recv_msg returns that oldest queued message without performing any
transport read (the unread stream and the rest of the driver state are
untouched); when nothing is queued and no end-of-stream signal was seen,
recv_msg reads one chunk via recv_bytes, feeds it to the driver receive
operation, and repeats. -/
theorem recv_msg_queue_spec :
    (∀ (d : Driver) (input : List (List Nat)) (m : List Nat)
        (rest : List SlipEvent), d.events = SlipEvent.msg m :: rest →
        recv_msg d input =
          (Except.ok m, { d with events := rest }, input)) ∧
    (∀ (d : Driver) (c : List Nat) (cs : List (List Nat)),
        d.events = [] → d.finished = false →
        recv_msg d (c :: cs) = recv_msg (d.receive c) cs) := by
  constructor
  · intro d input m rest h
    cases input <;> simp [recv_msg, Driver.get, h]
  · intro d c cs he hf
    simp [recv_msg, Driver.get, he, hf]

theorem recv_msg_queue_spec_witness :
    recv_msg dPop [[1]] = (Except.ok [65], dPop0, [[1]]) ∧
      recv_msg dPop0 [[192]] = recv_msg (dPop0.receive [192]) [] :=
  ⟨recv_msg_queue_spec.1 dPop [[1]] [65] [] rfl,
   recv_msg_queue_spec.2 dPop0 [192] [] rfl rfl⟩

/-- C3: when an unreported protocol error is the oldest pending item,
recv_msg raises it exactly once (it is removed from the queue and no
transport read happens), before any message queued after it; the next
recv_msg call returns the message from the next packet; and one receive of
a chunk holding a malformed packet followed by a valid packet queues the
error and the message in arrival order. -/
theorem recv_msg_protocol_error_spec :
    (∀ (d : Driver) (input : List (List Nat)) (body : List Nat)
        (rest : List SlipEvent), d.events = SlipEvent.err body :: rest →
        recv_msg d input =
          (Except.error body, { d with events := rest }, input)) ∧
    (∀ (d : Driver) (input : List (List Nat)) (body m : List Nat)
        (rest : List SlipEvent),
        d.events = SlipEvent.err body :: SlipEvent.msg m :: rest →
        (recv_msg d input).1 = Except.error body ∧
          recv_msg { d with events := SlipEvent.msg m :: rest } input =
            (Except.ok m, { d with events := rest }, input)) ∧
    (Driver.new.receive [192, 65, 219, 255, 66, 192, 67, 192]).events =
      [SlipEvent.err [65, 219, 255, 66], SlipEvent.msg [67]] := by
  refine ⟨?_, ?_, by decide⟩
  · intro d input body rest h
    cases input <;> simp [recv_msg, Driver.get, h]
  · intro d input body m rest h
    constructor
    · cases input <;> simp [recv_msg, Driver.get, h]
    · cases input <;> simp [recv_msg, Driver.get]

theorem recv_msg_protocol_error_spec_witness :
    recv_msg dErr [] = (Except.error [1], dPop0, []) ∧
      (recv_msg dErrMsg []).1 = Except.error [219, 255] ∧
      recv_msg dPop [] = (Except.ok [65], dPop0, []) :=
  ⟨recv_msg_protocol_error_spec.1 dErr [] [1] [] rfl,
   (recv_msg_protocol_error_spec.2.1 dErrMsg [] [219, 255] [65] []
      (by decide)).1,
   (recv_msg_protocol_error_spec.2.1 dErrMsg [] [219, 255] [65] []
      (by decide)).2⟩

/-- C7: for every message, send_msg hands to send_bytes exactly the packet
produced by the driver send operation, namely the encoding of the message,
and leaves the driver state (receive buffer, queued messages and errors,
end-of-stream flag) unchanged. -/
theorem send_msg_spec (d : Driver) (written : List (List Nat))
    (message : List Nat) :
    (send_msg d written message).1 = d ∧
      (send_msg d written message).2 = written ++ [encode message] :=
  ⟨rfl, rfl⟩

theorem send_bytes_fuel_spec (w : Nat → Nat) (hw : ∀ k, 1 ≤ w k) :
    ∀ (fuel : Nat) (packet : List Nat) (k : Nat), packet.length ≤ fuel →
      ∃ segs, send_bytes_fuel fuel w k packet = some segs ∧
        segs.flatten = packet := by
  intro fuel
  induction fuel with
  | zero =>
    intro packet k h
    have hnil : packet = [] := List.eq_nil_of_length_eq_zero (Nat.le_zero.mp h)
    subst hnil
    exact ⟨[], rfl, rfl⟩
  | succ n ih =>
    intro packet k h
    cases packet with
    | nil => exact ⟨[], rfl, rfl⟩
    | cons p ps =>
      have hlen : ((p :: ps).drop (w k)).length ≤ n := by
        have := hw k
        simp only [List.length_drop, List.length_cons]
        simp only [List.length_cons] at h
        omega
      obtain ⟨segs, hs, hj⟩ := ih ((p :: ps).drop (w k)) (k + 1) hlen
      refine ⟨(p :: ps).take (w k) :: segs, ?_, ?_⟩
      · simp [send_bytes_fuel, hs]
      · simp [hj, List.take_append_drop]

/-- C4: whenever every write call on the wrapped stream writes at least one
byte, the retry loop of SlipStream.send_bytes terminates (the fuel equal to
the packet length suffices) and the accepted byte sequences of the
successive write calls concatenate, in order, to the original packet. -/
theorem send_bytes_spec (w : Nat → Nat) (packet : List Nat)
    (hw : ∀ k, 1 ≤ w k) :
    ∃ segs, send_bytes w packet = some segs ∧ segs.flatten = packet :=
  send_bytes_fuel_spec w hw packet.length packet 0 (Nat.le_refl _)

theorem send_bytes_spec_witness :
    ∃ segs, send_bytes (fun _ => 2) [1, 2, 3] = some segs ∧
      segs.flatten = [1, 2, 3] :=
  send_bytes_spec (fun _ => 2) [1, 2, 3] (fun _ => Nat.le_succ 1)

theorem get_none {d d2 : Driver} (h : d.get = (none, d2)) :
    d2 = d ∧ d.events = [] ∧ d.finished = false := by
  rcases hevents : d.events with _ | ⟨e, rest⟩
  · simp only [Driver.get, hevents] at h
    cases hfin : d.finished
    · rw [hfin] at h
      simp only [Bool.false_eq_true, if_false, Prod.mk.injEq] at h
      exact ⟨h.2.symm, rfl, rfl⟩
    · rw [hfin] at h
      simp at h
  · simp only [Driver.get, hevents] at h
    simp at h

theorem get_ok_cons_eq {d d2 : Driver} {b : Nat} {m : List Nat}
    (h : d.get = (some (Except.ok (b :: m)), d2)) :
    d.events = SlipEvent.msg (b :: m) :: d2.events ∧
      d2.recv_buffer = d.recv_buffer ∧ d2.finished = d.finished := by
  rcases hevents : d.events with _ | ⟨e, rest⟩
  · simp only [Driver.get, hevents] at h
    cases hfin : d.finished <;> rw [hfin] at h <;> simp at h
  · simp only [Driver.get, hevents] at h
    cases e with
    | msg m0 =>
      simp only [Prod.mk.injEq, Option.some.injEq, Except.ok.injEq] at h
      obtain ⟨h1, h2⟩ := h
      subst h1
      subst h2
      exact ⟨rfl, rfl, rfl⟩
    | err b0 => simp at h

theorem get_good {d dx : Driver} {ro : Option (Except (List Nat) (List Nat))}
    (h : d.get = (ro, dx)) (hG : GoodEvents d) : GoodEvents dx := by
  rcases hevents : d.events with _ | ⟨e, rest⟩
  · simp only [Driver.get, hevents] at h
    cases hfin : d.finished <;> rw [hfin] at h <;>
      simp only [Bool.false_eq_true, if_false, if_true, Prod.mk.injEq] at h <;>
      exact h.2 ▸ hG
  · simp only [Driver.get, hevents, Prod.mk.injEq] at h
    obtain ⟨-, h2⟩ := h
    subst h2
    intro hmem
    apply hG
    rw [hevents]
    exact List.mem_cons_of_mem e hmem

theorem get_ok_nil {d dx : Driver} (hG : GoodEvents d)
    (h : d.get = (some (Except.ok []), dx)) : dx = d ∧ d.finished = true := by
  rcases hevents : d.events with _ | ⟨e, rest⟩
  · simp only [Driver.get, hevents] at h
    cases hfin : d.finished <;> rw [hfin] at h
    · simp at h
    · simp only [if_true, Prod.mk.injEq] at h
      exact ⟨h.2.symm, rfl⟩
  · simp only [Driver.get, hevents] at h
    cases e with
    | msg m0 =>
      simp only [Prod.mk.injEq, Option.some.injEq, Except.ok.injEq] at h
      exfalso
      apply hG
      rw [hevents, h.1]
      exact List.mem_cons_self _ _
    | err b0 => simp at h

theorem get_receive_nil_not_none (d : Driver) :
    ((d.receive []).get).1 ≠ none := by
  simp only [Driver.receive, Driver.get]
  cases d.events <;> simp

theorem iterMeasure_zero {d : Driver} {input : List (List Nat)}
    (h : iterMeasure d input = 0) :
    d.events = [] ∧ d.finished = true ∧ input = [] := by
  unfold iterMeasure at h
  refine ⟨List.eq_nil_of_length_eq_zero (by omega), ?_, ?_⟩
  · cases hfin : d.finished
    · exfalso
      rw [hfin] at h
      simp only [Bool.false_eq_true, if_false] at h
      omega
    · rfl
  · cases input with
    | nil => rfl
    | cons c cs =>
      exfalso
      simp only [List.map_cons, List.sum_cons] at h
      omega

theorem scanBuffer_length :
    ∀ l acc : List Nat,
      (scanBuffer acc l).2.length + (scanBuffer acc l).1.length ≤
        acc.length + l.length := by
  intro l
  induction l with
  | nil => intro acc; simp [scanBuffer]
  | cons b rest ih =>
    intro acc
    simp only [scanBuffer]
    split
    · split
      · have := ih []
        simp only [List.length_nil, Nat.zero_add] at this
        simp only [List.length_cons]
        omega
      · split <;>
          · have := ih []
            simp only [List.length_nil, Nat.zero_add] at this
            simp only [List.length_cons]
            simp_all
            omega
    · have := ih (acc ++ [b])
      simp only [List.length_append, List.length_cons, List.length_nil]
        at this ⊢
      omega

theorem iterMeasure_receive_nil_lt {d : Driver} (hf : d.finished = false) :
    iterMeasure (d.receive []) [] < iterMeasure d [] := by
  simp [Driver.receive, iterMeasure, hf]

theorem iterMeasure_receive_lt {d : Driver} (hf : d.finished = false)
    (c : List Nat) (cs : List (List Nat)) :
    iterMeasure (d.receive c) cs < iterMeasure d (c :: cs) := by
  by_cases hc : c = []
  · subst hc
    simp [Driver.receive, iterMeasure, hf]
    omega
  · have hb := scanBuffer_length (d.recv_buffer ++ c) []
    simp only [List.length_nil, Nat.zero_add, List.length_append] at hb
    simp [Driver.receive, iterMeasure, hc, hf]
    omega

theorem iterMeasure_pop_lt {d d2 : Driver} {b : Nat} {m : List Nat}
    (h : d.get = (some (Except.ok (b :: m)), d2))
    (input : List (List Nat)) :
    iterMeasure d2 input < iterMeasure d input := by
  obtain ⟨he, hb2, hf2⟩ := get_ok_cons_eq h
  unfold iterMeasure
  rw [he, hb2, hf2]
  simp only [List.length_cons]
  omega

theorem iterFuel_succ_err {d d2 : Driver} {e : List Nat}
    (h : d.get = (some (Except.error e), d2)) (n : Nat)
    (input : List (List Nat)) :
    iterFuel (n + 1) d input = ⟨[], some e, d2, input⟩ := by
  cases input <;> simp [iterFuel, h]

theorem iterFuel_succ_empty {d d2 : Driver}
    (h : d.get = (some (Except.ok []), d2)) (n : Nat)
    (input : List (List Nat)) :
    iterFuel (n + 1) d input = ⟨[], none, d2, input⟩ := by
  cases input <;> simp [iterFuel, h]

theorem iterFuel_succ_pop {d d2 : Driver} {b : Nat} {m : List Nat}
    (h : d.get = (some (Except.ok (b :: m)), d2)) (n : Nat)
    (input : List (List Nat)) :
    iterFuel (n + 1) d input = (iterFuel n d2 input).push (b :: m) := by
  cases input <;> simp only [iterFuel, h]

theorem iterFuel_succ_none_nil {d dx : Driver}
    (h : d.get = (none, dx)) (n : Nat) :
    iterFuel (n + 1) d [] = iterFuel n (d.receive []) [] := by
  simp only [iterFuel, h]

theorem iterFuel_succ_none_cons {d dx : Driver}
    (h : d.get = (none, dx)) (n : Nat) (c : List Nat)
    (cs : List (List Nat)) :
    iterFuel (n + 1) d (c :: cs) = iterFuel n (d.receive c) cs := by
  simp only [iterFuel, h]

theorem iterFuel_stable :
    ∀ (n : Nat) (d : Driver) (input : List (List Nat)),
      iterMeasure d input ≤ n →
      iterFuel (n + 1) d input = iterFuel n d input := by
  intro n
  induction n with
  | zero =>
    intro d input h
    obtain ⟨he, hf, hi⟩ := iterMeasure_zero (Nat.le_zero.mp h)
    subst hi
    have hget : d.get = (some (Except.ok []), d) := by
      simp [Driver.get, he, hf]
    rw [iterFuel_succ_empty hget 0 [], iterFuel]
  | succ n ih =>
    intro d input h
    rcases hget : d.get with ⟨ro, d2⟩
    rcases ro with _ | r
    · obtain ⟨-, -, hf⟩ := get_none hget
      cases input with
      | nil =>
        rw [iterFuel_succ_none_nil hget, iterFuel_succ_none_nil hget]
        exact ih (d.receive []) []
          (Nat.lt_succ_iff.mp
            (lt_of_lt_of_le (iterMeasure_receive_nil_lt hf) h))
      | cons c cs =>
        rw [iterFuel_succ_none_cons hget, iterFuel_succ_none_cons hget]
        exact ih (d.receive c) cs
          (Nat.lt_succ_iff.mp
            (lt_of_lt_of_le (iterMeasure_receive_lt hf c cs) h))
    · rcases r with e | ml
      · rw [iterFuel_succ_err hget, iterFuel_succ_err hget]
      · rcases ml with _ | ⟨b, m⟩
        · rw [iterFuel_succ_empty hget, iterFuel_succ_empty hget]
        · rw [iterFuel_succ_pop hget, iterFuel_succ_pop hget,
            ih d2 input
              (Nat.lt_succ_iff.mp
                (lt_of_lt_of_le (iterMeasure_pop_lt hget input) h))]

theorem iterFuel_measure_le :
    ∀ (n : Nat) (d : Driver) (input : List (List Nat)),
      iterMeasure d input ≤ n →
      iterFuel n d input = iterLoop d input := by
  intro n
  induction n with
  | zero =>
    intro d input h
    rw [iterLoop, Nat.le_zero.mp h]
  | succ n ih =>
    intro d input h
    rcases Nat.lt_or_ge (iterMeasure d input) (n + 1) with hlt | hge
    · have hle : iterMeasure d input ≤ n := Nat.lt_succ_iff.mp hlt
      rw [iterFuel_stable n d input hle]
      exact ih d input hle
    · rw [iterLoop, Nat.le_antisymm h hge]

theorem decodeBody_cons_ne_nil {b : Nat} {l m : List Nat}
    (h : decodeBody (b :: l) = some m) : m ≠ [] := by
  cases l with
  | nil =>
    rw [decodeBody] at h
    split at h
    · simp at h
    · simp only [Option.some.injEq] at h
      rw [← h]
      simp
  | cons c rest =>
    rw [decodeBody] at h
    split at h
    · simp at h
    · split at h
      · split at h
        · simp only [Option.map_eq_some'] at h
          obtain ⟨t, -, ht⟩ := h
          intro hm
          rw [hm] at ht
          simp at ht
        · split at h
          · simp only [Option.map_eq_some'] at h
            obtain ⟨t, -, ht⟩ := h
            intro hm
            rw [hm] at ht
            simp at ht
          · simp at h
      · simp only [Option.map_eq_some'] at h
        obtain ⟨t, -, ht⟩ := h
        intro hm
        rw [hm] at ht
        simp at ht

theorem scanBuffer_msg_ne_nil :
    ∀ (l acc m : List Nat),
      SlipEvent.msg m ∈ (scanBuffer acc l).2 → m ≠ [] := by
  intro l
  induction l with
  | nil => intro acc m h; simp [scanBuffer] at h
  | cons b rest ih =>
    intro acc m h
    simp only [scanBuffer] at h
    split at h
    · split at h
      · exact ih [] m h
      · next hacc =>
        split at h
        · next m0 hdec =>
          simp only [List.mem_cons] at h
          rcases h with h | h
          · injection h with hm
            subst hm
            cases acc with
            | nil => exact absurd rfl hacc
            | cons a t =>
              rw [decode] at hdec
              rcases hdb : decodeBody (a :: t) with _ | m1
              · rw [hdb] at hdec
                simp at hdec
              · rw [hdb] at hdec
                simp only [Except.ok.injEq] at hdec
                exact hdec ▸ decodeBody_cons_ne_nil hdb
          · exact ih [] m h
        · next body hdec =>
          simp only [List.mem_cons] at h
          rcases h with h | h
          · exact absurd h (by simp)
          · exact ih [] m h
    · exact ih (acc ++ [b]) m h

theorem GoodEvents.receive {d : Driver} (hG : GoodEvents d) (c : List Nat) :
    GoodEvents (d.receive c) := by
  unfold Driver.receive
  split
  · exact hG
  · intro hmem
    rcases List.mem_append.mp hmem with hm | hm
    · exact hG hm
    · exact scanBuffer_msg_ne_nil _ _ _ hm rfl

theorem iterFuel_good :
    ∀ (n : Nat) (d : Driver) (input : List (List Nat)),
      iterMeasure d input ≤ n → GoodEvents d →
      (∀ m, m ∈ (iterFuel n d input).msgs → m ≠ []) ∧
        ((iterFuel n d input).error = none →
          (iterFuel n d input).finalDriver.finished = true) := by
  intro n
  induction n with
  | zero =>
    intro d input h hG
    obtain ⟨-, hf, hi⟩ := iterMeasure_zero (Nat.le_zero.mp h)
    subst hi
    constructor
    · intro m hm
      simp [iterFuel] at hm
    · intro _
      exact hf
  | succ n ih =>
    intro d input h hG
    rcases hget : d.get with ⟨ro, dx⟩
    rcases ro with _ | r
    · obtain ⟨hdx, he, hf⟩ := get_none hget
      cases input with
      | nil =>
        rw [iterFuel_succ_none_nil hget]
        exact ih (d.receive []) []
          (Nat.lt_succ_iff.mp
            (lt_of_lt_of_le (iterMeasure_receive_nil_lt hf) h))
          (hG.receive [])
      | cons c cs =>
        rw [iterFuel_succ_none_cons hget]
        exact ih (d.receive c) cs
          (Nat.lt_succ_iff.mp
            (lt_of_lt_of_le (iterMeasure_receive_lt hf c cs) h))
          (hG.receive c)
    · rcases r with e | ml
      · rw [iterFuel_succ_err hget]
        exact ⟨fun m hm => by simp at hm, fun hcontr => by simp at hcontr⟩
      · rcases ml with _ | ⟨b, m0⟩
        · obtain ⟨hdx, hfin⟩ := get_ok_nil hG hget
          rw [iterFuel_succ_empty hget]
          exact ⟨fun m hm => by simp at hm, fun _ => hdx ▸ hfin⟩
        · have hrec := ih dx input
            (Nat.lt_succ_iff.mp
              (lt_of_lt_of_le (iterMeasure_pop_lt hget input) h))
            (get_good hget hG)
          rw [iterFuel_succ_pop hget]
          constructor
          · intro m hm
            simp only [IterRun.push, List.mem_cons] at hm
            rcases hm with hm | hm
            · subst hm
              simp
            · exact hrec.1 m hm
          · intro herr
            simp only [IterRun.push] at herr ⊢
            exact hrec.2 herr

theorem iterLoop_step_pop {d d2 : Driver} {b : Nat} {m : List Nat}
    (h : d.get = (some (Except.ok (b :: m)), d2))
    (input : List (List Nat)) :
    iterLoop d input = (iterLoop d2 input).push (b :: m) := by
  cases hM : iterMeasure d input with
  | zero =>
    obtain ⟨he, -, -⟩ := iterMeasure_zero hM
    simp only [Driver.get, he] at h
    split at h <;> simp at h
  | succ n =>
    rw [iterLoop, hM, iterFuel_succ_pop h n input,
      iterFuel_measure_le n d2 input
        (by have hx := iterMeasure_pop_lt h input; omega)]

theorem iterLoop_step_empty {d d2 : Driver}
    (h : d.get = (some (Except.ok []), d2)) (input : List (List Nat)) :
    iterLoop d input = ⟨[], none, d2, input⟩ := by
  cases hM : iterMeasure d input with
  | zero =>
    obtain ⟨he, hf, hi⟩ := iterMeasure_zero hM
    subst hi
    have : d.get = (some (Except.ok []), d) := by simp [Driver.get, he, hf]
    rw [this] at h
    simp only [Prod.mk.injEq, Option.some.injEq] at h
    rw [iterLoop, hM, iterFuel, h.2]
  | succ n => rw [iterLoop, hM, iterFuel_succ_empty h n input]

theorem iterLoop_step_err {d d2 : Driver} {e : List Nat}
    (h : d.get = (some (Except.error e), d2)) (input : List (List Nat)) :
    iterLoop d input = ⟨[], some e, d2, input⟩ := by
  cases hM : iterMeasure d input with
  | zero =>
    obtain ⟨he, hf, -⟩ := iterMeasure_zero hM
    simp [Driver.get, he, hf] at h
  | succ n => rw [iterLoop, hM, iterFuel_succ_err h n input]

theorem iterLoop_step_none_nil {d dx : Driver} (h : d.get = (none, dx)) :
    iterLoop d [] = iterLoop (d.receive []) [] := by
  obtain ⟨-, -, hf⟩ := get_none h
  cases hM : iterMeasure d [] with
  | zero =>
    obtain ⟨-, hfin, -⟩ := iterMeasure_zero hM
    rw [hfin] at hf
    exact absurd hf (by simp)
  | succ n =>
    rw [iterLoop, hM, iterFuel_succ_none_nil h n,
      iterFuel_measure_le n (d.receive []) []
        (by have hx := iterMeasure_receive_nil_lt hf; omega)]

theorem iterLoop_step_none_cons {d dx : Driver} (h : d.get = (none, dx))
    (c : List Nat) (cs : List (List Nat)) :
    iterLoop d (c :: cs) = iterLoop (d.receive c) cs := by
  obtain ⟨-, -, hf⟩ := get_none h
  cases hM : iterMeasure d (c :: cs) with
  | zero =>
    obtain ⟨-, -, hi⟩ := iterMeasure_zero hM
    exact absurd hi (by simp)
  | succ n =>
    rw [iterLoop, hM, iterFuel_succ_none_cons h n c cs,
      iterFuel_measure_le n (d.receive c) cs
        (by have hx := iterMeasure_receive_lt hf c cs; omega)]

theorem iterLoop_of_recv_msg :
    ∀ (input : List (List Nat)) (d d2 : Driver) (input2 : List (List Nat))
      (r : Except (List Nat) (List Nat)),
      recv_msg d input = (r, d2, input2) →
      iterLoop d input =
        match r with
        | Except.error e => ⟨[], some e, d2, input2⟩
        | Except.ok [] => ⟨[], none, d2, input2⟩
        | Except.ok (b :: m) => (iterLoop d2 input2).push (b :: m) := by
  intro input
  induction input with
  | nil =>
    intro d d2 input2 r h
    rcases hget : d.get with ⟨ro, dx⟩
    rcases ro with _ | rr
    · simp only [recv_msg, hget] at h
      rw [iterLoop_step_none_nil hget]
      split at h
      · next r2 d2x heq =>
        simp only [Prod.mk.injEq] at h
        obtain ⟨h1, h2, h3⟩ := h
        subst h1
        subst h2
        subst h3
        rcases r2 with e | ml
        · rw [iterLoop_step_err heq]
        · rcases ml with _ | ⟨b, m⟩
          · rw [iterLoop_step_empty heq]
          · rw [iterLoop_step_pop heq]
      · next heq =>
        exact absurd (congrArg Prod.fst heq) (get_receive_nil_not_none d)
    · simp only [recv_msg, hget, Prod.mk.injEq] at h
      obtain ⟨h1, h2, h3⟩ := h
      subst h1
      subst h2
      subst h3
      rcases rr with e | ml
      · rw [iterLoop_step_err hget]
      · rcases ml with _ | ⟨b, m⟩
        · rw [iterLoop_step_empty hget]
        · rw [iterLoop_step_pop hget]
  | cons c cs ih =>
    intro d d2 input2 r h
    rcases hget : d.get with ⟨ro, dx⟩
    rcases ro with _ | rr
    · simp only [recv_msg, hget] at h
      rw [iterLoop_step_none_cons hget]
      exact ih _ _ _ _ h
    · simp only [recv_msg, hget, Prod.mk.injEq] at h
      obtain ⟨h1, h2, h3⟩ := h
      subst h1
      subst h2
      subst h3
      rcases rr with e | ml
      · rw [iterLoop_step_err hget]
      · rcases ml with _ | ⟨b, m⟩
        · rw [iterLoop_step_empty hget]
        · rw [iterLoop_step_pop hget]

/-- C5: iterating over a SlipWrapper yields each non-empty message that
recv_msg returns and goes on iterating, while an empty recv_msg result ends
the iteration; and for every run starting from a fresh Driver, every
yielded message is non-empty (the engine never queues an empty message, so
no empty message is ever conflated with a payload) and a normally ended
iteration has seen the end-of-stream signal from the transport: retrieval
yields the terminating empty message only immediately after the transport
signalled end-of-stream. -/
theorem slipwrapper_iter_spec :
    (∀ (d : Driver) (input : List (List Nat)) (b : Nat) (m : List Nat)
        (d2 : Driver) (input2 : List (List Nat)),
        recv_msg d input = (Except.ok (b :: m), d2, input2) →
        iterLoop d input = (iterLoop d2 input2).push (b :: m)) ∧
    (∀ (d : Driver) (input : List (List Nat)) (d2 : Driver)
        (input2 : List (List Nat)),
        recv_msg d input = (Except.ok [], d2, input2) →
        iterLoop d input = ⟨[], none, d2, input2⟩) ∧
    (∀ input : List (List Nat),
        (∀ m, m ∈ (iterLoop Driver.new input).msgs → m ≠ []) ∧
          ((iterLoop Driver.new input).error = none →
            (iterLoop Driver.new input).finalDriver.finished = true)) := by
  refine ⟨?_, ?_, ?_⟩
  · intro d input b m d2 input2 h
    exact iterLoop_of_recv_msg input d d2 input2 _ h
  · intro d input d2 input2 h
    exact iterLoop_of_recv_msg input d d2 input2 _ h
  · intro input
    have hG : GoodEvents Driver.new := by
      intro hmem
      simp [Driver.new] at hmem
    exact iterFuel_good (iterMeasure Driver.new input) Driver.new input
      (Nat.le_refl _) hG

theorem slipwrapper_iter_spec_witness :
    iterLoop dPop [] = (iterLoop dPop0 []).push [65] ∧
      iterLoop dFin [] = ⟨[], none, dFin, []⟩ ∧
      [65] ≠ [] ∧
      (iterLoop Driver.new [[192, 65, 192]]).finalDriver.finished = true :=
  ⟨slipwrapper_iter_spec.1 dPop [] 65 [] dPop0 [] (by decide),
   slipwrapper_iter_spec.2.1 dFin [] dFin [] (by decide),
   (slipwrapper_iter_spec.2.2 [[192, 65, 192]]).1 [65] (by decide),
   (slipwrapper_iter_spec.2.2 [[192, 65, 192]]).2 (by decide)⟩

/-- C6: recv_bytes returns the empty byte sequence, performing no read call
on the wrapped stream, whenever the stream reports itself closed (a missing
closed attribute counts as not closed); otherwise it returns the result of
exactly one read call requesting chunk_size bytes. -/
theorem slipstream_recv_bytes_spec (s : SlipStreamState) :
    (SlipStream.stream_is_closed s = true →
      SlipStream.recv_bytes s = ([], [])) ∧
    (SlipStream.stream_is_closed s = false →
      SlipStream.recv_bytes s =
        (s.stream.readData s.chunk_size, [s.chunk_size])) := by
  constructor
  · intro h
    simp [SlipStream.recv_bytes, h]
  · intro h
    simp [SlipStream.recv_bytes, h]

theorem slipstream_recv_bytes_spec_witness :
    SlipStream.recv_bytes sampleClosedState = ([], []) ∧
      SlipStream.recv_bytes sampleState =
        (sampleState.stream.readData sampleState.chunk_size,
          [sampleState.chunk_size]) :=
  ⟨(slipstream_recv_bytes_spec sampleClosedState).1 rfl,
   (slipstream_recv_bytes_spec sampleState).2 rfl⟩

/-- C8: constructing a SlipStream fails with TypeError exactly when the
supplied stream lacks a read attribute, has a non-callable read attribute,
lacks a write attribute, has a non-callable write attribute, or has an
encoding attribute; on success the stream is stored unchanged and a fresh
Driver is attached. -/
theorem slipstream_init_spec :
    (∀ (stream : PyStream) (cs : Int),
        SlipStream.init stream cs = none ↔
          (stream.hasRead = false ∨ stream.readCallable = false ∨
            stream.hasWrite = false ∨ stream.writeCallable = false ∨
            stream.hasEncoding = true)) ∧
    (∀ (stream : PyStream) (cs : Int) (st : SlipStreamState),
        SlipStream.init stream cs = some st →
        st.stream = stream ∧ st.driver = Driver.new) := by
  constructor
  · intro stream cs
    rcases stream with ⟨hr, rc, hw, wc, he, cl, rd⟩
    cases hr <;> cases rc <;> cases hw <;> cases wc <;> cases he <;>
      simp [SlipStream.init]
  · intro stream cs st h
    unfold SlipStream.init at h
    split at h
    · split at h
      · split at h
        · simp at h
        · simp only [Option.some.injEq] at h
          subst h
          exact ⟨rfl, rfl⟩
      · simp at h
    · simp at h

theorem slipstream_init_spec_witness :
    sampleState.stream = sampleStream ∧ sampleState.driver = Driver.new :=
  slipstream_init_spec.2 sampleStream 5 sampleState rfl

/-- C9: the SlipStream constructor stores io.DEFAULT_BUFFER_SIZE as the
chunk_size attribute when the chunk_size argument is not positive, and the
argument itself verbatim when it is positive. -/
theorem slipstream_chunk_size_spec :
    ∀ (stream : PyStream) (cs : Int) (st : SlipStreamState),
      SlipStream.init stream cs = some st →
      ((cs ≤ 0 → st.chunk_size = DEFAULT_BUFFER_SIZE) ∧
        (0 < cs → st.chunk_size = cs)) := by
  intro stream cs st h
  unfold SlipStream.init at h
  split at h
  · split at h
    · split at h
      · simp at h
      · simp only [Option.some.injEq] at h
        subst h
        constructor
        · intro hle
          show (if cs > 0 then cs else DEFAULT_BUFFER_SIZE) =
            DEFAULT_BUFFER_SIZE
          rw [if_neg (by omega)]
        · intro hlt
          show (if cs > 0 then cs else DEFAULT_BUFFER_SIZE) = cs
          rw [if_pos hlt]
    · simp at h
  · simp at h

theorem slipstream_chunk_size_spec_witness :
    sampleStateDefault.chunk_size = DEFAULT_BUFFER_SIZE ∧
      sampleState.chunk_size = 5 :=
  ⟨(slipstream_chunk_size_spec sampleStream (-3) sampleStateDefault
      (by rfl)).1 (by decide),
   (slipstream_chunk_size_spec sampleStream 5 sampleState (by rfl)).2
      (by decide)⟩

/-- C10: an attribute access that falls through to SlipStream.__getattr__
(one not defined on the wrapper itself) raises AttributeError exactly when
the attribute name starts with read or write, or is one of detach,
flushInput, flushOutput, getbuffer, getvalue, peek, raw,
reset_input_buffer, reset_output_buffer, seek, seekable, tell, truncate;
every other such access is delegated to the wrapped stream.  Byte-level
stream access that would invalidate the framing state is therefore
unreachable through the wrapper. -/
theorem slipstream_getattr_spec (a : String) :
    SlipStream.getattr a = AttrAccess.refused ↔
      (a.startsWith "read" = true ∨ a.startsWith "write" = true ∨
        a ∈ blockedAttributes) := by
  unfold SlipStream.getattr
  split
  · next hcond =>
    simp only [Bool.or_eq_true, List.contains, List.elem_eq_mem,
      decide_eq_true_iff] at hcond
    exact ⟨fun _ => or_assoc.mp hcond, fun _ => rfl⟩
  · next hcond =>
    simp only [Bool.or_eq_true, List.contains, List.elem_eq_mem,
      decide_eq_true_iff] at hcond
    constructor
    · intro hc
      exact absurd hc (by decide)
    · intro hr
      exact absurd (or_assoc.mpr hr) hcond

end Sliplib
